import Mathlib

/-!
Shallow embedding of the two extraction scripts of this repository
(`extract_arrays.py` and `extract-myseq.py`).  Tensors are modelled as
nested lists of rationals, the dynamically-typed per-sequence `result`
variable as an `Option`, and Python runtime failures (uncaught
`AssertionError` / `NameError`) as an explicit error type.  All
definitions are transcribed from the Python source; dictionary iteration
order is modelled by lists of `(layer, tensor)` pairs.
-/

namespace ESMExtract

/-- Output kinds selectable via the command-line `--include` option
(`extract_arrays.py` offers all four; `extract-myseq.py` offers the
first three). -/
inductive Kind where
  | mean
  | per_tok
  | bos
  | npy_array
  deriving DecidableEq

/-- Uncaught Python runtime failures relevant to these scripts: the
`assert` on layer indices, and references to unbound variables. -/
inductive Err where
  | nameError
  | assertionError
  deriving DecidableEq

/-- A hidden-state vector (one position of one sequence). -/
abbrev Vec := List ℚ

/-- The per-sequence slice of a layer tensor: positions × hidden. -/
abbrev SeqTensor := List Vec

/-- A whole-batch layer tensor: sequences × positions × hidden. -/
abbrev BatchTensor := List SeqTensor

/-- Layer-index normalization, `(i + num_layers + 1) % (num_layers + 1)`
(`extract_arrays.py` line 81, `extract-myseq.py` line 86).  Python's `%`
with a positive divisor returns a non-negative remainder, as does
`Int.emod`. -/
def normalizeLayer (L : Int) (i : Int) : Int :=
  (i + L + 1) % (L + 1)

/-- The guard of the `assert` on `--repr_layers`
(`extract_arrays.py` lines 77-79): every index lies in
`[-(L+1), L]`. -/
def layersValid (L : Int) (idxs : List Int) : Bool :=
  idxs.all fun i => decide (-(L + 1) ≤ i) && decide (i ≤ L)

/-- The assert-then-normalize step of `main` (`extract_arrays.py`
lines 77-82): an out-of-range index raises `AssertionError`; otherwise
every index is mapped by `normalizeLayer`. -/
def checkedNormalize (L : Int) (idxs : List Int) : Except Err (List Int) :=
  if layersValid L idxs then
    Except.ok (idxs.map (normalizeLayer L))
  else
    Except.error Err.assertionError

/-- Observable inference events of a run: one forward pass per batch
(`extract_arrays.py` line 92). -/
inductive Event where
  | forwardPass
  deriving DecidableEq

/-- Control flow of `main` around the assert: the assertion on
`--repr_layers` (lines 77-79) runs before the batch loop (lines 84-92),
so an invalid list aborts the process before any forward pass; on a
valid list one forward pass happens per batch. -/
def runExtract (L : Int) (idxs : List Int) (nBatches : Nat) :
    List Event × Option Err :=
  match checkedNormalize L idxs with
  | Except.error e => ([], some e)
  | Except.ok _ => (List.replicate nBatches Event.forwardPass, none)

/-- Python `t[i, 1 : len + 1]` for a batch tensor `t` and sequence `i`:
drop the beginning-of-sequence position and keep the next `len`
positions.  Python slicing truncates silently when the tensor is
shorter, exactly as `drop`/`take` do. -/
def perTokSlice (t : BatchTensor) (i : Nat) (len : Nat) : SeqTensor :=
  ((t.getD i []).drop 1).take len

/-- Python `t[i, 0]`: the vector at position 0 of sequence `i`'s raw
layer tensor. -/
def bosRow (t : BatchTensor) (i : Nat) : Vec :=
  (t.getD i []).getD 0 []

/-- The semantics of `torch.Tensor.mean(0)` on a `(n, d)` tensor: the
component-wise arithmetic mean of the rows. -/
def meanDim0 (rows : SeqTensor) : Vec :=
  match rows with
  | [] => []
  | r :: rs =>
    (rs.foldl (fun a b => List.zipWith (fun x y => x + y) a b) r).map
      (fun x => x / ((rs.length + 1 : ℕ) : ℚ))

/-- The structured per-sequence `result` dictionary of the bundle mode.
The three representation fields model dictionary keys that are only
present when the matching `--include` kind was requested. -/
structure BundleResult where
  label : String
  representations : Option (List (Int × SeqTensor))
  mean_representations : Option (List (Int × Vec))
  bos_representations : Option (List (Int × Vec))
  deriving DecidableEq

/-- The bundle-mode per-sequence body of `extract_arrays.py`
(lines 109-133, the branches taken when `npy_array` is absent from
`--include`): start from `{"label": label}` and add one dictionary per
requested kind, mapping each layer to its slice / mean / bos vector. -/
def buildBundle (incl : List Kind) (label : String)
    (reps : List (Int × BatchTensor)) (i len : Nat) : BundleResult :=
  { label := label
    representations :=
      if Kind.per_tok ∈ incl then
        some (reps.map fun p => (p.1, perTokSlice p.2 i len))
      else none
    mean_representations :=
      if Kind.mean ∈ incl then
        some (reps.map fun p => (p.1, meanDim0 (perTokSlice p.2 i len)))
      else none
    bos_representations :=
      if Kind.bos ∈ incl then
        some (reps.map fun p => (p.1, bosRow p.2 i))
      else none }

/-- The `npy_array`-mode per-sequence body of `extract_arrays.py`
(lines 112-143 with `npy_array ∈ include`).  `prev` is the value of the
Python variable `result` left over from earlier iterations (`none` when
unbound).  With `per_tok` requested, the loop at lines 119-120 rebinds
`result` once per layer, so only the last layer's slice survives; the
reference `result.detach()` (line 121) and `np.save(output_file,
result)` (lines 140-143) raise `NameError` when `result` is unbound.
Returns the saved array together with the new value of `result`. -/
def processSeqNpy (incl : List Kind) (reps : List (Int × BatchTensor))
    (i len : Nat) (prev : Option SeqTensor) :
    Except Err (SeqTensor × Option SeqTensor) :=
  if Kind.per_tok ∈ incl then
    match reps.foldl (fun _ p => some (perTokSlice p.2 i len)) prev with
    | some a => Except.ok (a, some a)
    | none => Except.error Err.nameError
  else
    match prev with
    | some a => Except.ok (a, some a)
    | none => Except.error Err.nameError

/-- What a per-sequence iteration writes to disk: either the structured
bundle (`torch.save`) or a single raw numeric array (`np.save`). -/
inductive FileContent where
  | bundle (b : BundleResult)
  | array (a : SeqTensor)
  deriving DecidableEq

/-- Output-file path computation of `extract_arrays.py` lines 98-106:
`output_dir / f"{label}.pt"` in bundle mode, `output_dir / f"{label}"`
in `npy_array` mode. -/
def outputPath (outputDir label : String) (incl : List Kind) : String :=
  if Kind.npy_array ∈ incl then outputDir ++ "/" ++ label
  else outputDir ++ "/" ++ label ++ ".pt"

/-- The whole per-sequence loop body of `extract_arrays.py`
(lines 98-143): compute the output path, then either build and save the
structured bundle, or run the `npy_array`-mode body.  On success exactly
one `(path, content)` pair is produced. -/
def processSeq (incl : List Kind) (outputDir label : String)
    (reps : List (Int × BatchTensor)) (i len : Nat)
    (prev : Option SeqTensor) :
    Except Err ((String × FileContent) × Option SeqTensor) :=
  if Kind.npy_array ∈ incl then
    match processSeqNpy incl reps i len prev with
    | Except.ok (a, env) =>
      Except.ok ((outputPath outputDir label incl, FileContent.array a), env)
    | Except.error e => Except.error e
  else
    Except.ok
      ((outputPath outputDir label incl,
        FileContent.bundle (buildBundle incl label reps i len)), prev)

/-- A completed serialization call in `extract-myseq.py`: `np.save`
writes the vector `res`, `torch.save` writes the `result` bundle. -/
inductive SaveEvent where
  | npySave (v : Vec)
  | torchSave (b : BundleResult)
  deriving DecidableEq

/-- The per-sequence loop body of `extract-myseq.py` (lines 103-139).
The initialization `result = {"label": label}` is commented out in the
source (line 108), so `result0` — the value of the Python variable
`result`, `none` when unbound — is threaded in unchanged.  Each
`result[...] = ...` item assignment needs `result` already bound and
raises `NameError` otherwise.  Lines 122-124 rebind `res` once per layer
to the mean of that layer's per-token slice, then reference it; then
`np.save` writes `res` and `torch.save` writes `result`.  Returns the
saves performed, in order, and the error that halted the iteration, if
any. -/
def processSeqMyseq (incl : List Kind) (reps : List (Int × BatchTensor))
    (i len : Nat) (result0 : Option BundleResult) :
    List SaveEvent × Option Err :=
  let step1 : Except Err (Option BundleResult) :=
    if Kind.per_tok ∈ incl then
      match result0 with
      | none => Except.error Err.nameError
      | some r =>
        Except.ok (some { r with
          representations :=
            some (reps.map fun p => (p.1, perTokSlice p.2 i len)) })
    else Except.ok result0
  match step1 with
  | Except.error e => ([], some e)
  | Except.ok result1 =>
    let step2 : Except Err (Option BundleResult) :=
      if Kind.mean ∈ incl then
        match result1 with
        | none => Except.error Err.nameError
        | some r =>
          Except.ok (some { r with
            mean_representations :=
              some (reps.map fun p => (p.1, meanDim0 (perTokSlice p.2 i len))) })
      else Except.ok result1
    match step2 with
    | Except.error e => ([], some e)
    | Except.ok result2 =>
      match reps.foldl (fun _ p => some (meanDim0 (perTokSlice p.2 i len)))
          (none : Option Vec) with
      | none => ([], some Err.nameError)
      | some resV =>
        let step3 : Except Err (Option BundleResult) :=
          if Kind.bos ∈ incl then
            match result2 with
            | none => Except.error Err.nameError
            | some r =>
              Except.ok (some { r with
                bos_representations :=
                  some (reps.map fun p => (p.1, bosRow p.2 i)) })
          else Except.ok result2
        match step3 with
        | Except.error e => ([], some e)
        | Except.ok result3 =>
          match result3 with
          | none => ([SaveEvent.npySave resV], some Err.nameError)
          | some r => ([SaveEvent.npySave resV, SaveEvent.torchSave r], none)

/-- The per-batch sequence loop of `extract_arrays.py` (lines 98-143)
viewed through its filesystem effects.  `writeOk k` says whether the
write for the `k`-th sequence succeeds; the loop has no `try`/`except`,
so the first failing write propagates, halting the loop with the files
already written left on disk.  Returns the paths written, in order, and
the index of the failed sequence, if any. -/
def writeLoop (incl : List Kind) (outputDir : String)
    (writeOk : Nat → Bool) : Nat → List String → List String × Option Nat
  | _, [] => ([], none)
  | k, label :: rest =>
    if writeOk k then
      let tail := writeLoop incl outputDir writeOk (k + 1) rest
      (outputPath outputDir label incl :: tail.1, tail.2)
    else ([], some k)

lemma layersValid_iff (L : Int) (idxs : List Int) :
    layersValid L idxs = true ↔ ∀ i ∈ idxs, -(L + 1) ≤ i ∧ i ≤ L := by
  simp [layersValid, List.all_eq_true, Bool.and_eq_true, decide_eq_true_eq]

lemma checkedNormalize_ok_of_valid (L : Int) (idxs : List Int)
    (h : ∀ i ∈ idxs, -(L + 1) ≤ i ∧ i ≤ L) :
    checkedNormalize L idxs = Except.ok (idxs.map (normalizeLayer L)) := by
  simp [checkedNormalize, (layersValid_iff L idxs).mpr h]

lemma checkedNormalize_error_of_invalid (L : Int) (idxs : List Int)
    (h : ∃ i ∈ idxs, ¬(-(L + 1) ≤ i ∧ i ≤ L)) :
    checkedNormalize L idxs = Except.error Err.assertionError := by
  obtain ⟨i, hi, hni⟩ := h
  cases hval : layersValid L idxs with
  | true => exact absurd ((layersValid_iff L idxs).mp hval i hi) hni
  | false => simp [checkedNormalize, hval]

lemma normalizeLayer_range (L i : Int) (hL : 0 ≤ L) :
    0 ≤ normalizeLayer L i ∧ normalizeLayer L i ≤ L := by
  have h1 : (0 : Int) < L + 1 := by omega
  have h2 := Int.emod_nonneg (i + L + 1) (by omega : (L + 1 : Int) ≠ 0)
  have h3 := Int.emod_lt_of_pos (i + L + 1) h1
  exact ⟨h2, by unfold normalizeLayer; omega⟩

/-- C2: for every list of integer layer indices, if every index lies in
`[-(L+1), L]` then the normalizer maps each index `i` to the
non-negative canonical index `(i + L + 1) % (L + 1)`; if any index lies
outside that range, the program fails fast with an assertion failure. -/
theorem checkedNormalize_spec (L : Int) (idxs : List Int) (hL : 0 ≤ L) :
    ((∀ i ∈ idxs, -(L + 1) ≤ i ∧ i ≤ L) →
      checkedNormalize L idxs =
        Except.ok (idxs.map fun i => (i + L + 1) % (L + 1)) ∧
      ∀ i ∈ idxs, 0 ≤ (i + L + 1) % (L + 1)) ∧
    ((∃ i ∈ idxs, ¬(-(L + 1) ≤ i ∧ i ≤ L)) →
      checkedNormalize L idxs = Except.error Err.assertionError) := by
  refine ⟨fun h => ⟨checkedNormalize_ok_of_valid L idxs h, ?_⟩,
    checkedNormalize_error_of_invalid L idxs⟩
  intro i _
  exact (normalizeLayer_range L i hL).1

/-- Witness for C2: with a 2-layer model, `[-1, 0, 2]` normalizes to
`[2, 0, 2]` and `[5]` trips the assertion. -/
theorem checkedNormalize_spec_witness :
    checkedNormalize 2 [-1, 0, 2] = Except.ok [2, 0, 2] ∧
    checkedNormalize 2 [5] = Except.error Err.assertionError := by
  constructor
  · have h := ((checkedNormalize_spec 2 [-1, 0, 2] (by decide)).1 (by decide)).1
    rw [h]
    exact congrArg Except.ok (by decide)
  · exact (checkedNormalize_spec 2 [5] (by decide)).2 ⟨5, by decide, by decide⟩

/-- Counterexample for C3: with a 1-layer model the valid range is
`[-2, 1]`, and the valid list `[-2, 0]` contains two distinct indices
that both normalize to `0`, so the normalization map is not a bijection
from the list's indices onto a subset of `[0, L]`. -/
theorem normalize_not_bijective_on_list :
    (∀ i ∈ ([-2, 0] : List Int), -(1 + 1) ≤ i ∧ i ≤ 1) ∧
    normalizeLayer 1 (-2) = normalizeLayer 1 0 ∧ (-2 : Int) ≠ 0 := by
  decide

/-- C3 (amended): for every valid layer-index list every normalized
index lies in `[0, L]` (the image is a subset of `[0, L]`, though the
map need not be injective on the list), and for every list containing an
out-of-range index the program aborts, with no forward pass run, before
any inference. -/
theorem normalize_range_and_abort (L : Int) (idxs : List Int)
    (nBatches : Nat) (hL : 0 ≤ L) :
    ((∀ i ∈ idxs, -(L + 1) ≤ i ∧ i ≤ L) →
      ∀ i ∈ idxs, 0 ≤ normalizeLayer L i ∧ normalizeLayer L i ≤ L) ∧
    ((∃ i ∈ idxs, ¬(-(L + 1) ≤ i ∧ i ≤ L)) →
      runExtract L idxs nBatches = ([], some Err.assertionError)) := by
  constructor
  · intro _ i _
    exact normalizeLayer_range L i hL
  · intro h
    simp [runExtract, checkedNormalize_error_of_invalid L idxs h]

/-- Witness for C3 (amended): with a 1-layer model, `-2` normalizes into
`[0, 1]`, and the out-of-range list `[5]` aborts with no forward pass. -/
theorem normalize_range_and_abort_witness :
    (0 ≤ normalizeLayer 1 (-2) ∧ normalizeLayer 1 (-2) ≤ 1) ∧
    runExtract 1 [5] 3 = ([], some Err.assertionError) := by
  constructor
  · exact (normalize_range_and_abort 1 [-2] 3 (by decide)).1 (by decide) (-2)
      (by decide)
  · exact (normalize_range_and_abort 1 [5] 3 (by decide)).2 ⟨5, by decide, by decide⟩

lemma foldl_overwrite {α β : Type} (f : α → β) :
    ∀ (l : List α) (init : Option β) (a : α), l.getLast? = some a →
      l.foldl (fun _ p => some (f p)) init = some (f a)
  | [], _, _, h => by simp at h
  | [x], init, a, h => by
    simp only [List.getLast?_singleton, Option.some_inj] at h
    simp [List.foldl, h]
  | x :: y :: rest, init, a, h => by
    have h2 : (y :: rest).getLast? = some a := by
      simpa [List.getLast?_cons_cons] using h
    simpa [List.foldl] using foldl_overwrite f (y :: rest) (some (f x)) a h2

/-- C1: in `extract_arrays.py`, when `npy_array` is requested together
with `per_tok`, the per-sequence `result` is overwritten once per layer
in iteration order, so the array saved for the sequence is the per-token
slice of the last requested layer only; the other layers and kinds are
discarded. -/
theorem npy_perTok_saves_last_layer_only (incl : List Kind)
    (outputDir label : String) (reps : List (Int × BatchTensor))
    (i len : Nat) (prev : Option SeqTensor) (last : Int × BatchTensor)
    (hnpy : Kind.npy_array ∈ incl) (hpt : Kind.per_tok ∈ incl)
    (hlast : reps.getLast? = some last) :
    processSeq incl outputDir label reps i len prev =
      Except.ok ((outputPath outputDir label incl,
        FileContent.array (perTokSlice last.2 i len)),
        some (perTokSlice last.2 i len)) := by
  simp [processSeq, processSeqNpy, hnpy, hpt,
    foldl_overwrite (fun p : Int × BatchTensor => perTokSlice p.2 i len)
      reps prev last hlast]

/-- Witness for C1: two layers with distinct values; only layer 1's
per-token slice is saved. -/
theorem npy_perTok_saves_last_layer_only_witness :
    processSeq [Kind.npy_array, Kind.per_tok, Kind.mean] "out" "s"
      [(0, [[[1], [2], [3]]]), (1, [[[4], [5], [6]]])] 0 2 none =
      Except.ok (("out/s", FileContent.array [[5], [6]]), some [[5], [6]]) := by
  have h := npy_perTok_saves_last_layer_only
    [Kind.npy_array, Kind.per_tok, Kind.mean] "out" "s"
    [(0, [[[1], [2], [3]]]), (1, [[[4], [5], [6]]])] 0 2 none
    (1, [[[4], [5], [6]]]) (by decide) (by decide) (by decide)
  rw [h]
  exact congrArg Except.ok (by decide)

/-- C4: with `per_tok` requested, the bundle's per-token entry for each
layer is the slice of positions `1` through the residue count of the raw
layer tensor, so when the raw tensor has at least `len + 1` positions
its length along the sequence axis equals the residue count `len`. -/
theorem perTok_slice_length (incl : List Kind) (label : String)
    (reps : List (Int × BatchTensor)) (i len : Nat)
    (hpt : Kind.per_tok ∈ incl)
    (hrows : ∀ p ∈ reps, len + 1 ≤ ((p.2 : BatchTensor).getD i []).length) :
    (buildBundle incl label reps i len).representations =
      some (reps.map fun p => (p.1, perTokSlice p.2 i len)) ∧
    ∀ p ∈ reps, (perTokSlice p.2 i len).length = len := by
  refine ⟨by simp [buildBundle, hpt], fun p hp => ?_⟩
  have h := hrows p hp
  simp only [perTokSlice, List.length_take, List.length_drop]
  omega

/-- Witness for C4: one layer with 3 positions, residue count 2; the
per-token slice has length 2. -/
theorem perTok_slice_length_witness :
    (buildBundle [Kind.per_tok] "s" [(0, [[[1], [2], [3]]])] 0 2).representations =
      some [(0, [[2], [3]])] ∧
    (perTokSlice [[[1], [2], [3]]] 0 2).length = 2 := by
  have h := perTok_slice_length [Kind.per_tok] "s" [(0, [[[1], [2], [3]]])] 0 2
    (by decide) (by decide)
  refine ⟨h.1.trans (congrArg some (by decide)), h.2 (0, [[[1], [2], [3]]]) (by decide)⟩

/-- C5: with `mean` and `per_tok` both requested, each layer's
mean-pooled entry is `meanDim0` — the arithmetic mean along the sequence
axis — of exactly the same per-token slice stored in the per-token
entry, one vector per layer. -/
theorem mean_of_same_slice (incl : List Kind) (label : String)
    (reps : List (Int × BatchTensor)) (i len : Nat)
    (hpt : Kind.per_tok ∈ incl) (hm : Kind.mean ∈ incl) :
    ∃ r, (buildBundle incl label reps i len).representations = some r ∧
      (buildBundle incl label reps i len).mean_representations =
        some (r.map fun q => (q.1, meanDim0 q.2)) := by
  refine ⟨reps.map fun p => (p.1, perTokSlice p.2 i len),
    by simp [buildBundle, hpt], ?_⟩
  simp [buildBundle, hm, List.map_map]

/-- Witness for C5: slice rows `[2]` and `[4]` have mean `[3]`. -/
theorem mean_of_same_slice_witness :
    ∃ r, (buildBundle [Kind.per_tok, Kind.mean] "s"
        [(0, [[[1], [2], [4]]])] 0 2).representations = some r ∧
      (buildBundle [Kind.per_tok, Kind.mean] "s"
        [(0, [[[1], [2], [4]]])] 0 2).mean_representations =
        some (r.map fun q => (q.1, meanDim0 q.2)) :=
  mean_of_same_slice [Kind.per_tok, Kind.mean] "s" [(0, [[[1], [2], [4]]])] 0 2
    (by decide) (by decide)

/-- C6: with `bos` requested, each layer's beginning-of-sequence entry
is exactly the vector at position 0 of the raw per-layer tensor for the
sequence, independent of the sequence's length. -/
theorem bos_position_zero (incl : List Kind) (label : String)
    (reps : List (Int × BatchTensor)) (i len₁ len₂ : Nat)
    (hb : Kind.bos ∈ incl) :
    (buildBundle incl label reps i len₁).bos_representations =
      some (reps.map fun p => (p.1, (p.2.getD i []).getD 0 [])) ∧
    (buildBundle incl label reps i len₁).bos_representations =
      (buildBundle incl label reps i len₂).bos_representations := by
  constructor <;> simp [buildBundle, hb, bosRow]

/-- Witness for C6: bos entry is the position-0 vector `[1]`, the same
for lengths 2 and 7. -/
theorem bos_position_zero_witness :
    (buildBundle [Kind.bos] "s" [(0, [[[1], [2], [3]]])] 0 2).bos_representations =
      some [(0, [1])] ∧
    (buildBundle [Kind.bos] "s" [(0, [[[1], [2], [3]]])] 0 2).bos_representations =
      (buildBundle [Kind.bos] "s" [(0, [[[1], [2], [3]]])] 0 7).bos_representations := by
  have h := bos_position_zero [Kind.bos] "s" [(0, [[[1], [2], [3]]])] 0 2 7
    (by decide)
  exact ⟨h.1.trans (congrArg some (by decide)), h.2⟩

/-- Counterexample for C7: in bundle mode the output path is the output
directory joined with the label plus a `.pt` extension, not the bare
label: for directory `out` and label `seq1` the path is `out/seq1.pt`,
which differs from `out/seq1`. -/
theorem outputPath_not_bare_label :
    outputPath "out" "seq1" [Kind.mean] = "out/seq1.pt" ∧
    outputPath "out" "seq1" [Kind.mean] ≠ "out" ++ "/" ++ "seq1" :=
  ⟨by decide, by decide⟩

/-- C7 (amended): for every successfully processed input sequence
exactly one `(path, content)` pair is written; in bundle mode the path
is the output directory joined with the FASTA label plus a `.pt`
extension and the content is the structured bundle (label plus per-kind,
per-layer tensors), while in raw-array mode the path is the directory
joined with the bare label and the content is a single raw numeric
array. -/
theorem one_file_per_sequence (incl : List Kind) (outputDir label : String)
    (reps : List (Int × BatchTensor)) (i len : Nat)
    (prev : Option SeqTensor) :
    (Kind.npy_array ∉ incl →
      processSeq incl outputDir label reps i len prev =
        Except.ok ((outputDir ++ "/" ++ label ++ ".pt",
          FileContent.bundle (buildBundle incl label reps i len)), prev)) ∧
    (Kind.npy_array ∈ incl → Kind.per_tok ∈ incl →
      ∀ last, reps.getLast? = some last →
        processSeq incl outputDir label reps i len prev =
          Except.ok ((outputDir ++ "/" ++ label,
            FileContent.array (perTokSlice last.2 i len)),
            some (perTokSlice last.2 i len))) := by
  constructor
  · intro hno
    simp [processSeq, outputPath, hno]
  · intro hnpy hpt last hlast
    simp [processSeq, processSeqNpy, outputPath, hnpy, hpt,
      foldl_overwrite (fun p : Int × BatchTensor => perTokSlice p.2 i len)
        reps prev last hlast]

/-- Witness for C7 (amended): one bundle-mode write at `out/s.pt` and
one raw-array-mode write at `out/s`. -/
theorem one_file_per_sequence_witness :
    processSeq [Kind.bos] "out" "s" [(0, [[[1], [2]]])] 0 1 none =
      Except.ok (("out" ++ "/" ++ "s" ++ ".pt",
        FileContent.bundle (buildBundle [Kind.bos] "s" [(0, [[[1], [2]]])] 0 1)),
        none) ∧
    processSeq [Kind.npy_array, Kind.per_tok] "out" "s" [(0, [[[1], [2]]])] 0 1
        none =
      Except.ok (("out" ++ "/" ++ "s",
        FileContent.array (perTokSlice [[[1], [2]]] 0 1)), some [[2]]) := by
  constructor
  · exact (one_file_per_sequence [Kind.bos] "out" "s" [(0, [[[1], [2]]])] 0 1
      none).1 (by decide)
  · have h := (one_file_per_sequence [Kind.npy_array, Kind.per_tok] "out" "s"
      [(0, [[[1], [2]]])] 0 1 none).2 (by decide) (by decide)
      (0, [[[1], [2]]]) (by decide)
    rw [h]
    exact congrArg Except.ok (by decide)

lemma writeLoop_prefix (incl : List Kind) (outputDir : String)
    (writeOk : Nat → Bool) :
    ∀ (labels : List String) (k n : Nat), n < labels.length →
      (∀ j, j < n → writeOk (k + j) = true) → writeOk (k + n) = false →
      writeLoop incl outputDir writeOk k labels =
        ((labels.take n).map fun l => outputPath outputDir l incl,
          some (k + n))
  | [], _, n, hn, _, _ => by simp at hn
  | l :: rest, k, 0, _, _, hfail => by
    rw [Nat.add_zero] at hfail
    simp [writeLoop, hfail]
  | l :: rest, k, n + 1, hn, hok, hfail => by
    have h0 : writeOk k = true := by simpa using hok 0 (by omega)
    have hfail2 : writeOk (k + 1 + n) = false := by
      simpa [Nat.add_assoc, Nat.add_comm 1 n] using hfail
    have ih := writeLoop_prefix incl outputDir writeOk rest (k + 1) n
      (by simpa using Nat.lt_of_succ_lt_succ hn)
      (fun j hj => by
        simpa [Nat.add_assoc, Nat.add_comm 1 j] using hok (j + 1) (by omega))
      hfail2
    simp [writeLoop, h0, ih]
    omega

/-- C8: if the writes for the first `n` sequences of a batch succeed and
the write for sequence `n` fails, the loop's effect is exactly the files
for sequences `0..n-1`, written in order and left on disk (no rollback),
and the run halts at sequence `n` with no retry and no further write. -/
theorem write_failure_keeps_prefix_and_halts (incl : List Kind)
    (outputDir : String) (writeOk : Nat → Bool) (labels : List String)
    (n : Nat) (hn : n < labels.length)
    (hok : ∀ j, j < n → writeOk j = true) (hfail : writeOk n = false) :
    writeLoop incl outputDir writeOk 0 labels =
      ((labels.take n).map fun l => outputPath outputDir l incl, some n) := by
  have h := writeLoop_prefix incl outputDir writeOk labels 0 n hn
    (fun j hj => by simpa using hok j hj) (by simpa using hfail)
  simpa using h

/-- Witness for C8: three sequences, the write for sequence 1 fails;
only sequence 0's file is on disk and the run halts at index 1. -/
theorem write_failure_keeps_prefix_and_halts_witness :
    writeLoop [Kind.mean] "out" (fun k => decide (k ≠ 1)) 0 ["a", "b", "c"] =
      (["out/a.pt"], some 1) := by
  have h := write_failure_keeps_prefix_and_halts [Kind.mean] "out"
    (fun k => decide (k ≠ 1)) ["a", "b", "c"] 1 (by decide)
    (fun j hj => by interval_cases j; decide) (by decide)
  rw [h]
  decide

/-- C9: in `extract-myseq.py` the initialization of `result` is
commented out, so for every run that reaches the per-sequence loop (any
layer list, any valid `--include` selection from `mean`/`per_tok`/`bos`)
the first sequence raises an uncaught `NameError` before anything is
saved, aborting the run. -/
theorem myseq_first_sequence_nameError (incl : List Kind)
    (reps : List (Int × BatchTensor)) (i len : Nat)
    (hne : incl ≠ [])
    (hk : ∀ k ∈ incl, k = Kind.mean ∨ k = Kind.per_tok ∨ k = Kind.bos) :
    processSeqMyseq incl reps i len none = ([], some Err.nameError) := by
  by_cases hpt : Kind.per_tok ∈ incl
  · simp [processSeqMyseq, hpt]
  · by_cases hm : Kind.mean ∈ incl
    · simp [processSeqMyseq, hpt, hm]
    · by_cases hb : Kind.bos ∈ incl
      · cases hf : reps.foldl
            (fun _ p => some (meanDim0 (perTokSlice p.2 i len)))
            (none : Option Vec) with
        | none => simp [processSeqMyseq, hpt, hm, hf]
        | some v => simp [processSeqMyseq, hpt, hm, hb, hf]
      · obtain ⟨k, hkmem⟩ := List.exists_mem_of_ne_nil incl hne
        rcases hk k hkmem with h | h | h <;> subst h <;> contradiction

/-- Witness for C9: with `--include bos` and one layer, the first
sequence fails with `NameError` and nothing is saved. -/
theorem myseq_first_sequence_nameError_witness :
    processSeqMyseq [Kind.bos] [(0, [[[1], [2]]])] 0 1 none =
      ([], some Err.nameError) :=
  myseq_first_sequence_nameError [Kind.bos] [(0, [[[1], [2]]])] 0 1
    (by decide) (by decide)

/-- C10: in `extract_arrays.py`, with `npy_array` requested but
`per_tok` not, no branch assigns `result` for the current sequence
before `np.save`: when `result` is unbound (as on the first sequence of
a run, since this mode never binds it) the sequence raises an uncaught
`NameError`, and when `result` still holds a value `v` from an earlier
iteration, `v` is written again under the new sequence's filename. -/
theorem npy_without_perTok_stale_or_error (incl : List Kind)
    (outputDir label : String) (reps : List (Int × BatchTensor))
    (i len : Nat) (hnpy : Kind.npy_array ∈ incl)
    (hpt : Kind.per_tok ∉ incl) :
    processSeq incl outputDir label reps i len none =
      Except.error Err.nameError ∧
    ∀ v : SeqTensor, processSeq incl outputDir label reps i len (some v) =
      Except.ok ((outputPath outputDir label incl, FileContent.array v),
        some v) := by
  constructor
  · simp [processSeq, processSeqNpy, hnpy, hpt]
  · intro v
    simp [processSeq, processSeqNpy, hnpy, hpt]

/-- Witness for C10: with `--include npy_array mean`, an unbound
`result` raises `NameError`, and a leftover value `[[9]]` is re-saved
under the new sequence's path `out/s`. -/
theorem npy_without_perTok_stale_or_error_witness :
    processSeq [Kind.npy_array, Kind.mean] "out" "s" [(0, [[[1], [2]]])] 0 1
      none = Except.error Err.nameError ∧
    processSeq [Kind.npy_array, Kind.mean] "out" "s" [(0, [[[1], [2]]])] 0 1
      (some [[9]]) =
      Except.ok ((outputPath "out" "s" [Kind.npy_array, Kind.mean],
        FileContent.array [[9]]), some [[9]]) := by
  have h := npy_without_perTok_stale_or_error [Kind.npy_array, Kind.mean]
    "out" "s" [(0, [[[1], [2]]])] 0 1 (by decide) (by decide)
  exact ⟨h.1, h.2 [[9]]⟩

end ESMExtract
